import Mathlib

/-!
Shallow embedding of the RCABot monitoring agent core
(`src/agent/src/models/events.py`, `src/agent/src/processors/classifier.py`,
`src/agent/src/processors/anomaly.py`, `src/agent/src/integrations/jira.py`,
`src/agent/src/integrations/notifications.py`, `src/agent/src/agent.py`),
together with theorems settling the specification claims about it.

Modelling conventions:
* Python floats carrying anomaly scores and thresholds are modelled as `ℚ`
  (all constants involved are decimal literals, compared exactly).
* Python dicts used as records are modelled as structures; a key read with
  `dict.get(k, default)` is modelled by the default when the key is absent
  (`Option` fields for optional keys).
* Wall-clock timestamps (`detected_at`, `last_updated`, `resolved_at`, the
  timestamp salt of `generate_incident_id`) carry no logic relevant to the
  claims and are omitted or passed in as opaque string parameters.
* Calls into external collaborators (Bedrock, Jira HTTP, SNS/SES, RAG) are
  modelled as explicit oracle parameters; an `Except.error`/`none` result
  models the call raising an exception.
* Python `set` iteration order is unspecified; wherever the source iterates
  a `set` (`max(set(categories), key=...)`), the embedding takes the
  enumeration order as an explicit parameter constrained by `validEnum`.
-/

namespace RCABot

/-! ## Data model (`models/events.py`) -/

/-- `Priority` enum (events.py lines 12-19). -/
inductive Priority where
  | P1 | P2 | P3 | P4 | P5 | P6
deriving DecidableEq, Repr, Fintype

/-- `IncidentStatus` enum (events.py lines 22-30). -/
inductive IncidentStatus where
  | DETECTED | ANALYZING | CLASSIFIED | TICKET_CREATED | NOTIFIED | RESOLVED | CLOSED
deriving DecidableEq, Repr, Fintype

/-- `IncidentCategory` enum (events.py lines 33-42). -/
inductive IncidentCategory where
  | PERFORMANCE | AVAILABILITY | ERROR_RATE | RESOURCE_EXHAUSTION
  | SECURITY | CONFIGURATION | CAPACITY | UNKNOWN
deriving DecidableEq, Repr, Fintype

/-- The `.value` string of each `IncidentCategory` member. -/
def IncidentCategory.value : IncidentCategory → String
  | .PERFORMANCE => "performance"
  | .AVAILABILITY => "availability"
  | .ERROR_RATE => "error_rate"
  | .RESOURCE_EXHAUSTION => "resource_exhaustion"
  | .SECURITY => "security"
  | .CONFIGURATION => "configuration"
  | .CAPACITY => "capacity"
  | .UNKNOWN => "unknown"

/-- The `.value` string of each `Priority` member. -/
def Priority.value : Priority → String
  | .P1 => "P1" | .P2 => "P2" | .P3 => "P3"
  | .P4 => "P4" | .P5 => "P5" | .P6 => "P6"

/-- `AnomalyScore` dataclass (events.py lines 45-55). -/
structure AnomalyScore where
  score : ℚ
  confidence : ℚ
  reasoning : String
  factors : List String := []
deriving DecidableEq, Repr

/-- The slice of a collected event dict consumed by the classifier and the
incident factory (`e.get("event", {})` sub-dict of an analyzed event).
Fields read with `.get(key, default)` in the source are `Option`s here. -/
structure SourceEvent where
  eventId : String
  title : String
  description : String
  resourceId : Option String
deriving DecidableEq, Repr

/-- One entry of the `analyzed_events` list produced by
`AnomalyDetector.analyze_events` and consumed by `SeverityClassifier`
(anomaly.py lines 244-251 / 77-87 / 256-266).  `isAnomaly` models
`e.get("is_anomaly", False)` (missing key reads as `False`);
`anomalyScore` models `e.get("anomaly_score")`; `category` models
`e.get("category", IncidentCategory.UNKNOWN)`. -/
structure AnalyzedEvent where
  event : SourceEvent
  anomalyScore : Option AnomalyScore
  category : IncidentCategory
  isAnomaly : Bool
  rootCause : Option String := none
  recommendedActions : List String := []
deriving DecidableEq, Repr

/-- `SeverityClassifier._more_severe` (classifier.py lines 270-273):
`order = [P1..P6]; return p1 if order.index(p1) < order.index(p2) else p2`. -/
def severityOrder : List Priority :=
  [Priority.P1, Priority.P2, Priority.P3, Priority.P4, Priority.P5, Priority.P6]

/-- `order.index(p)` for the canonical severity order. -/
def sevIdx (p : Priority) : Nat := severityOrder.indexOf p

/-- `SeverityClassifier._more_severe` (classifier.py lines 270-273). -/
def moreSevere (p1 p2 : Priority) : Priority :=
  if severityOrder.indexOf p1 < severityOrder.indexOf p2 then p1 else p2

/-- Priority merge performed in `SeverityClassifier.classify`
(classifier.py lines 110-116): when the AI call returns a priority the
final priority is `_more_severe(rule, ai)`; when it raises, the rule-based
priority stands. -/
def classifyMergedPriority (rule : Priority) (ai : Option Priority) : Priority :=
  match ai with
  | some a => moreSevere rule a
  | none => rule

/-! ## Notification result records (`integrations/notifications.py`) -/

/-- Result of `_send_sns` / `_send_ses` (notifications.py lines 112-169):
a dict with `success` and either a message id or an error string. -/
structure SendResult where
  success : Bool
  info : String
deriving DecidableEq, Repr

/-- The `results` dict built by `NotificationService.notify`
(notifications.py lines 78-110).  The two early-return dicts carry only
`success`/`reason`; the send-path dict carries only `sns`/`ses`/`timestamp`
(note: no `success` key), so every key is an `Option`. -/
structure NotifyResult where
  success : Option Bool := none
  reason : Option String := none
  sns : Option SendResult := none
  ses : Option SendResult := none
  timestamp : Option String := none
deriving DecidableEq, Repr

/-- One entry appended to `incident.notifications_sent`
(notifications.py lines 104-108). -/
structure NotificationEntry where
  timestamp : String
  channels : List String
  results : NotifyResult
deriving DecidableEq, Repr

/-! ## Incident aggregate (`models/events.py` lines 58-210) -/

/-- `Incident` dataclass (events.py lines 58-102).  The timestamp fields
(`detected_at`, `last_updated`, `resolved_at`) and the free-form
`tags`/`metadata`/`account_id`/`resource_type`/`region` fields carry no
claim-relevant logic and are omitted, except that the `"resolution"`
metadata entry written by `resolve` is kept as `resolution`. -/
structure Incident where
  incidentId : String
  title : String
  description : String
  priority : Priority
  category : IncidentCategory
  status : IncidentStatus := IncidentStatus.DETECTED
  sourceEvents : List SourceEvent := []
  eventCount : Nat := 1
  affectedResources : List String := []
  anomalyScore : Option AnomalyScore := none
  rootCauseAnalysis : Option String := none
  recommendedActions : List String := []
  jiraTicketKey : Option String := none
  jiraTicketUrl : Option String := none
  notificationsSent : List NotificationEntry := []
  resolution : Option String := none
deriving DecidableEq, Repr

/-- `Incident.is_high_priority` (events.py lines 176-178):
`self.priority in [P1, P2, P3]`. -/
def isHighPriority (i : Incident) : Bool :=
  [Priority.P1, Priority.P2, Priority.P3].contains i.priority

/-- `Incident.is_low_priority` (events.py lines 180-182):
`self.priority in [P4, P5, P6]`. -/
def isLowPriority (i : Incident) : Bool :=
  [Priority.P4, Priority.P5, Priority.P6].contains i.priority

/-- `Incident.should_auto_close` (events.py lines 184-186). -/
def shouldAutoClose (i : Incident) : Bool := isLowPriority i

/-- `Incident.update_status` (events.py lines 188-191): sets the status
unconditionally (the `last_updated` stamp is omitted, see module note). -/
def updateStatus (i : Incident) (s : IncidentStatus) : Incident :=
  { i with status := s }

/-- `Incident.set_ticket` (events.py lines 199-203). -/
def setTicket (i : Incident) (key url : String) : Incident :=
  updateStatus { i with jiraTicketKey := some key, jiraTicketUrl := some url }
    IncidentStatus.TICKET_CREATED

/-- `Incident.resolve` (events.py lines 205-210); the `resolved_at` stamp is
omitted, the `"resolution"` metadata entry is kept. -/
def resolveIncident (i : Incident) (note : Option String) : Incident :=
  let i := updateStatus i IncidentStatus.RESOLVED
  match note with
  | some r => { i with resolution := some r }
  | none => i

/-! ## Lifecycle transition sequences (for the monotonicity claim) -/

/-- The canonical lifecycle order
`detected < analyzing < classified < ticket_created < notified < resolved < closed`. -/
def statusOrder : List IncidentStatus :=
  [IncidentStatus.DETECTED, IncidentStatus.ANALYZING, IncidentStatus.CLASSIFIED,
   IncidentStatus.TICKET_CREATED, IncidentStatus.NOTIFIED, IncidentStatus.RESOLVED,
   IncidentStatus.CLOSED]

/-- Index of a status in the canonical lifecycle order. -/
def statusIndex (s : IncidentStatus) : Nat := statusOrder.indexOf s

/-- One call to a transition method of `Incident`
(`update_status`, `set_ticket`, `resolve`). -/
inductive TransitionCall where
  | updateStatus (s : IncidentStatus)
  | setTicket (key url : String)
  | resolve (note : Option String)
deriving DecidableEq, Repr

/-- Apply one transition method call (events.py lines 188-210). -/
def applyCall (i : Incident) : TransitionCall → Incident
  | .updateStatus s => updateStatus i s
  | .setTicket key url => setTicket i key url
  | .resolve note => resolveIncident i note

/-- The status each transition call writes, independently of the current
state (each method assigns its target unconditionally). -/
def callTarget : TransitionCall → IncidentStatus
  | .updateStatus s => s
  | .setTicket _ _ => IncidentStatus.TICKET_CREATED
  | .resolve _ => IncidentStatus.RESOLVED

/-- The sequence of statuses an incident passes through under a sequence of
transition calls (initial status included). -/
def statusTrace (i : Incident) (cs : List TransitionCall) : List IncidentStatus :=
  (cs.scanl applyCall i).map Incident.status

/-! ## Correlation / grouping (`classifier.py` lines 124-150) -/

/-- The promotion filter of `_group_into_incidents` (classifier.py lines
130-134): `e.get("is_anomaly", False) or (e.get("anomaly_score") and
e["anomaly_score"].score >= 0.5)`. -/
def isPromoted (e : AnalyzedEvent) : Bool :=
  e.isAnomaly ||
    (match e.anomalyScore with
     | some s => decide (mkRat 1 2 ≤ s.score)
     | none => false)

/-- The grouping key `f"{category.value}:{resource}"` with
`resource = event.get("event", {}).get("resource_id", "unknown")`
(classifier.py lines 142-144). -/
def pyGroupKey (e : AnalyzedEvent) : String :=
  e.category.value ++ ":" ++ (e.event.resourceId.getD "unknown")

/-- The `(category, resource_id-or-"unknown")` pair the string key encodes. -/
def keyPair (e : AnalyzedEvent) : IncidentCategory × String :=
  (e.category, e.event.resourceId.getD "unknown")

/-- One iteration of the grouping loop (classifier.py lines 141-148) on the
insertion-ordered dict `groups`, modelled as an association list: append the
event to its key's group if the key exists, otherwise append a new
singleton group at the end. -/
def addToGroups (gs : List (String × List AnalyzedEvent)) (e : AnalyzedEvent) :
    List (String × List AnalyzedEvent) :=
  match gs with
  | [] => [(pyGroupKey e, [e])]
  | (k, es) :: rest =>
    if k = pyGroupKey e then (k, es ++ [e]) :: rest
    else (k, es) :: addToGroups rest e

/-- `SeverityClassifier._group_into_incidents` (classifier.py lines 124-150):
filter to promoted anomalies, partition by the string key, return the
groups in dict insertion order. -/
def groupIntoIncidents (analyzedEvents : List AnalyzedEvent) :
    List (List AnalyzedEvent) :=
  (((analyzedEvents.filter isPromoted).foldl addToGroups []).map Prod.snd)

/-! ## Computable string/rational helpers

The kernel cannot reduce Mathlib's `Sub ℚ` instance, `String.toLower`
(via `String.mapAux`) or `String.intercalate`, so the embedding uses these
equivalent executable forms; `ratSub_eq_sub` ties the subtraction back to
the standard one. -/

/-- Exact rational subtraction in kernel-reducible form. -/
def ratSub (a b : ℚ) : ℚ := mkRat (a.num * b.den - b.num * a.den) (a.den * b.den)

/-- Python `s.lower()` (ASCII, as produced by the monitored text). -/
def pyLower (s : String) : String := String.mk (s.data.map Char.toLower)

/-- Python `sep.join(xs)`. -/
def pyJoin (sep : String) : List String → String
  | [] => ""
  | [x] => x
  | x :: xs => x ++ sep ++ pyJoin sep xs

/-! ## Rule tables (`classifier.py` lines 50-76, default configuration) -/

/-- The default `anomaly_thresholds` dict in the iteration order of
`sorted(thresholds.items())` (classifier.py lines 51-58, loop at 171). -/
def anomalyThresholds : List (Priority × ℚ) :=
  [(Priority.P1, mkRat 95 100), (Priority.P2, mkRat 85 100),
   (Priority.P3, mkRat 7 10), (Priority.P4, mkRat 1 2),
   (Priority.P5, mkRat 3 10), (Priority.P6, 0)]

/-- Lookup `thresholds[priority_str]` in the default threshold dict. -/
def thresholdOf : Priority → ℚ
  | .P1 => mkRat 95 100 | .P2 => mkRat 85 100 | .P3 => mkRat 7 10
  | .P4 => mkRat 1 2 | .P5 => mkRat 3 10 | .P6 => 0

/-- The default `category_weights` dict (classifier.py lines 59-67), each
category's weights in dict insertion order; categories absent from the dict
map to the empty list (the `if primary_category.value in category_weights`
guard). -/
def categoryWeights : IncidentCategory → List (Priority × ℚ)
  | .AVAILABILITY => [(Priority.P1, mkRat 3 10), (Priority.P2, mkRat 2 10)]
  | .SECURITY => [(Priority.P1, mkRat 4 10), (Priority.P2, mkRat 3 10)]
  | .ERROR_RATE => [(Priority.P2, mkRat 2 10), (Priority.P3, mkRat 2 10)]
  | .PERFORMANCE => [(Priority.P3, mkRat 3 10), (Priority.P4, mkRat 2 10)]
  | .RESOURCE_EXHAUSTION => [(Priority.P2, mkRat 3 10), (Priority.P3, mkRat 2 10)]
  | .CONFIGURATION => [(Priority.P4, mkRat 3 10), (Priority.P5, mkRat 2 10)]
  | .CAPACITY => [(Priority.P3, mkRat 2 10), (Priority.P4, mkRat 2 10)]
  | .UNKNOWN => []

/-- The default `keywords` dict (classifier.py lines 68-75) in dict
insertion order. -/
def keywordTable : List (Priority × List String) :=
  [(Priority.P1, ["production down", "outage", "data loss", "security breach",
                  "critical failure"]),
   (Priority.P2, ["degraded", "major impact", "significant", "urgent"]),
   (Priority.P3, ["partial", "minor impact", "workaround"]),
   (Priority.P4, ["low impact", "non-critical"]),
   (Priority.P5, ["informational", "warning"]),
   (Priority.P6, ["cosmetic", "trivial"])]

/-! ## Rule-based classification (`classifier.py` lines 152-199) -/

/-- Python substring test `needle in haystack`: the needle's character
list occurs contiguously in the haystack's character list. -/
def pyIn (needle haystack : String) : Bool :=
  decide (List.IsInfix needle.data haystack.data)

/-- Python `max(iterable)` over a nonempty list of scores (first element as
seed, replace on strictly greater). -/
def pyMaxScore (scores : List ℚ) : ℚ :=
  match scores with
  | [] => 0
  | h :: t => t.foldl max h

/-- `max(e.get("anomaly_score", AnomalyScore(0, 0, "")).score for e in events)`
(classifier.py lines 158-161); the dataclass default has score 0. -/
def maxScoreOf (events : List AnalyzedEvent) : ℚ :=
  pyMaxScore (events.map (fun e =>
    (e.anomalyScore.getD { score := 0, confidence := 0, reasoning := "" }).score))

/-- Python `max(iterable, key=categories.count)` over an enumeration of
`set(categories)`: keep the first element, replacing only on a strictly
greater count (classifier.py lines 165 and 284). -/
def pyMaxByCount (enum : List IncidentCategory)
    (categories : List IncidentCategory) : IncidentCategory :=
  match enum with
  | [] => IncidentCategory.UNKNOWN
  | h :: t => t.foldl (fun best c =>
      if categories.count best < categories.count c then c else best) h

/-- `enum` is a possible iteration order of the Python `set` of
`categories`: no duplicates, same members. -/
def validEnum (enum categories : List IncidentCategory) : Prop :=
  enum.Nodup ∧ ∀ c, c ∈ enum ↔ c ∈ categories

instance (enum categories : List IncidentCategory) :
    Decidable (validEnum enum categories) :=
  inferInstanceAs (Decidable (enum.Nodup ∧ ∀ c, c ∈ enum ↔ c ∈ categories))

/-- The threshold scan (classifier.py lines 167-174): walk
`sorted(thresholds.items())` and take the first priority whose threshold is
met, defaulting to P6. -/
def thresholdBase (maxScore : ℚ) : Priority :=
  (((anomalyThresholds.find? fun pt => decide (pt.2 ≤ maxScore)).map Prod.fst).getD
    Priority.P6)

/-- The category-weight adjustment (classifier.py lines 176-184): first
weight entry with `max_score >= thresholds[p] - weight` escalates via
`_more_severe`, then the loop breaks. -/
def categoryAdjust (base : Priority) (cat : IncidentCategory) (maxScore : ℚ) :
    Priority :=
  match (categoryWeights cat).find? fun pw => decide (ratSub (thresholdOf pw.1) pw.2 ≤ maxScore) with
  | some pw => moreSevere base pw.1
  | none => base

/-- The joined lowercased description text
`" ".join(e.get("event", {}).get("description", "").lower() for e in events)`
(classifier.py lines 187-190). -/
def allText (events : List AnalyzedEvent) : String :=
  pyJoin " " (events.map fun e => pyLower e.event.description)

/-- The keyword scan (classifier.py lines 192-197): first priority whose
keyword list has a match in the joined text escalates via `_more_severe`,
then the loop breaks. -/
def keywordAdjust (base : Priority) (text : String) : Priority :=
  match keywordTable.find? fun pk => pk.2.any fun kw => pyIn kw text with
  | some pk => moreSevere base pk.1
  | none => base

/-- `SeverityClassifier._rule_based_classification` (classifier.py lines
152-199) under the default configuration.  `enum` is the iteration order of
`set(categories)` (unspecified by Python, see module note). -/
def ruleBasedClassification (enum : List IncidentCategory)
    (events : List AnalyzedEvent) : Priority :=
  match events with
  | [] => Priority.P6
  | _ =>
    let maxScore := maxScoreOf events
    let primaryCategory := pyMaxByCount enum (events.map AnalyzedEvent.category)
    let base := thresholdBase maxScore
    let base := categoryAdjust base primaryCategory maxScore
    keywordAdjust base (allText events)

/-! ## Incident factory (`classifier.py` lines 275-335) -/

/-- Python `list(dict.fromkeys(xs))`: deduplicate keeping the first
occurrence of each element, preserving order. -/
def pyDedup {α : Type} [DecidableEq α] : List α → List α
  | [] => []
  | a :: t => a :: pyDedup (t.filter fun b => b ≠ a)
termination_by l => l.length
decreasing_by
  simp only [List.length_cons]
  exact Nat.lt_succ_of_le (List.length_filter_le _ _)

/-- Python `max(xs, key=f)` over a nonempty list: keep the first element,
replace only on a strictly greater key. -/
def pyMaxByScore (xs : List AnomalyScore) : Option AnomalyScore :=
  match xs with
  | [] => none
  | h :: t => some (t.foldl (fun b x => if b.score < x.score then x else b) h)

/-- Python truthiness of an optional string (`None` and `""` are falsy). -/
def pyTruthyStr : Option String → Bool
  | some s => s ≠ ""
  | none => false

/-- `SeverityClassifier._create_incident` (classifier.py lines 275-335).
`id` stands in for `generate_incident_id(source_events)` (a SHA-256 of the
member event ids salted with the wall-clock time — opaque here); `enum` is
the iteration order of `set(categories)` (line 284) and, with a comment in
the source model, of the `set` in `affected_resources` (lines 287-291),
which is embedded as first-seen deduplication since no claim depends on
its order. -/
def createIncident (id : String) (enum : List IncidentCategory)
    (events : List AnalyzedEvent) (priority : Priority) : Incident :=
  let sourceEvents := events.map AnalyzedEvent.event
  let categories := events.map AnalyzedEvent.category
  let primaryCategory := pyMaxByCount enum categories
  let affectedResources :=
    pyDedup ((events.filter fun e => pyTruthyStr e.event.resourceId).map
      fun e => e.event.resourceId.getD "")
  let firstTitle := (events.head?.map fun e => e.event.title).getD "Unknown Incident"
  let title :=
    if events.length > 1 then
      firstTitle ++ " (+" ++ toString (events.length - 1) ++ " related events)"
    else firstTitle
  let description :=
    pyJoin "\n\n"
      (((events.map fun e => e.event.description).take 5).filter fun d => d ≠ "")
  let recommendations :=
    (pyDedup (events.foldl (fun acc e => acc ++ e.recommendedActions) [])).take 5
  let rootCauses := (events.filter fun e => pyTruthyStr e.rootCause).map
    fun e => e.rootCause.getD ""
  let rootCause := rootCauses.head?
  let bestScore := pyMaxByScore (events.filterMap AnalyzedEvent.anomalyScore)
  { incidentId := id
    title := title
    description := description
    priority := priority
    category := primaryCategory
    status := IncidentStatus.CLASSIFIED
    sourceEvents := sourceEvents
    eventCount := events.length
    affectedResources := affectedResources
    anomalyScore := bestScore
    rootCauseAnalysis := rootCause
    recommendedActions := recommendations
    notificationsSent := [] }

/-- `SeverityClassifier.classify` (classifier.py lines 85-122) under the
default configuration.  Oracles: `aiO` models `_ai_classification` (`none`
models the surrounding `except` firing, in which case the rule-based
priority stands — lines 111-116); `idO` models `generate_incident_id`;
`setEnum` yields the iteration order of `set(categories)`. -/
def classify (useAI : Bool) (aiO : List AnalyzedEvent → Option Priority)
    (idO : List AnalyzedEvent → String)
    (setEnum : List IncidentCategory → List IncidentCategory)
    (analyzedEvents : List AnalyzedEvent) : List Incident :=
  (groupIntoIncidents analyzedEvents).map fun group =>
    let enum := setEnum (group.map AnalyzedEvent.category)
    let priority := ruleBasedClassification enum group
    let priority :=
      if useAI && group.length > 0 then classifyMergedPriority priority (aiO group)
      else priority
    createIncident (idO group) enum group priority

/-! ## Anomaly-detector degradation paths (`anomaly.py`) -/

/-- The default analyzed entry appended for each event of a group whose
analysis call raised (anomaly.py lines 74-87).  The dict built there has
**no** `is_anomaly` key, so downstream `e.get("is_anomaly", False)` reads
`False`. -/
def defaultOnError (e : SourceEvent) : AnalyzedEvent :=
  { event := e
    anomalyScore := some { score := mkRat 1 2, confidence := mkRat 3 10,
                           reasoning := "Analysis unavailable",
                           factors := ["Error during analysis"] }
    category := IncidentCategory.UNKNOWN
    isAnomaly := false }

/-- The default analyzed entry produced for each event when Claude's
response fails JSON parsing (anomaly.py lines 253-266): `is_anomaly` is set
to `True` ("Assume anomaly on parse failure") and the dataclass default
leaves `factors` empty. -/
def defaultOnParseFailure (e : SourceEvent) : AnalyzedEvent :=
  { event := e
    anomalyScore := some { score := mkRat 1 2, confidence := mkRat 3 10,
                           reasoning := "Failed to parse AI analysis" }
    category := IncidentCategory.UNKNOWN
    isAnomaly := true }

/-- What `analyze_events` appends for a whole group when
`_analyze_event_group` raises (anomaly.py lines 74-87). -/
def errorResults (events : List SourceEvent) : List AnalyzedEvent :=
  events.map defaultOnError

/-- What `_parse_analysis_response` returns for a whole group on
`json.JSONDecodeError` (anomaly.py lines 253-268). -/
def parseFailureResults (events : List SourceEvent) : List AnalyzedEvent :=
  events.map defaultOnParseFailure

/-! ## Jira integration (`integrations/jira.py`) -/

/-- Configuration slice of `JiraIntegration` relevant to ticket creation. -/
structure JiraConfig where
  enabled : Bool := true
  baseUrl : String := ""
deriving DecidableEq, Repr

/-- The result dict of `JiraIntegration.create_ticket`
(jira.py lines 118-122). -/
structure TicketResult where
  key : String
  url : String
  autoClosed : Bool
deriving DecidableEq, Repr

/-- `JiraIntegration.create_ticket` (jira.py lines 72-126).  `post` models
the HTTP POST creating the issue, returning the new ticket key
(`data.get("key", "")`) or raising (`Except.error`, the `httpx.HTTPError`
path returning `None`).  The auto-close side effects
(`_add_resolution_comment`, `_close_ticket`) go to the external ticket
system and only the returned `auto_closed` flag is observable here. -/
def createTicket (cfg : JiraConfig) (post : Incident → Except String String)
    (incident : Incident) : Option (TicketResult × Incident) :=
  if !cfg.enabled then none
  else
    match post incident with
    | .error _ => none
    | .ok ticketKey =>
      let ticketUrl := cfg.baseUrl ++ "/browse/" ++ ticketKey
      let incident := setTicket incident ticketKey ticketUrl
      some ({ key := ticketKey, url := ticketUrl,
              autoClosed := shouldAutoClose incident }, incident)

/-! ## Notification service (`integrations/notifications.py`) -/

/-- One priority's entry of the `notification_rules` dict. -/
structure ChannelRule where
  immediate : Bool
  channels : List String
deriving DecidableEq, Repr

/-- Configuration slice of `NotificationService` (notifications.py lines
24-51).  `rules` models `notification_rules.get(priority.value, {...})`
as a total function (the default table has all six keys). -/
structure NotificationConfig where
  enabled : Bool := true
  snsTopicArn : String := ""
  fromEmail : String := ""
  distributionList : List String := []
  rules : Priority → ChannelRule

/-- The default `notification_rules` table (notifications.py lines 42-49). -/
def defaultNotificationRules : Priority → ChannelRule
  | .P1 => { immediate := true, channels := ["sns", "ses"] }
  | .P2 => { immediate := true, channels := ["sns", "ses"] }
  | .P3 => { immediate := true, channels := ["sns"] }
  | .P4 => { immediate := false, channels := ["sns"] }
  | .P5 => { immediate := false, channels := [] }
  | .P6 => { immediate := false, channels := [] }

/-- The default-configured notification service (all config keys absent). -/
def defaultNotificationConfig : NotificationConfig :=
  { rules := defaultNotificationRules }

/-- `NotificationService.notify` (notifications.py lines 68-110), returning
the result dict together with the (possibly) mutated incident.  `snsSend` /
`sesSend` model `_send_sns` / `_send_ses`; `ts` models the wall-clock
timestamp string.  Note the empty-channel early return at lines 93-94 fires
*before* the send calls and before the `notifications_sent` append at lines
103-108. -/
def notify (cfg : NotificationConfig) (snsSend sesSend : Incident → SendResult)
    (ts : String) (incident : Incident) : NotifyResult × Incident :=
  if !cfg.enabled then
    ({ success := some false, reason := some "Notifications disabled" }, incident)
  else
    let rules := cfg.rules incident.priority
    if rules.channels.isEmpty then
      ({ success := some true,
         reason := some "No notifications required for this priority" }, incident)
    else
      let snsRes :=
        if rules.channels.contains "sns" && cfg.snsTopicArn ≠ "" then
          some (snsSend incident)
        else none
      let sesRes :=
        if rules.channels.contains "ses" && cfg.fromEmail ≠ "" &&
            !cfg.distributionList.isEmpty then
          some (sesSend incident)
        else none
      let results : NotifyResult :=
        { sns := snsRes, ses := sesRes, timestamp := some ts }
      let incident :=
        { incident with notificationsSent := incident.notificationsSent ++
            [{ timestamp := ts, channels := rules.channels, results := results }] }
      (results, incident)

/-! ## Pipeline orchestrator (`agent.py`)

The LangGraph workflow is a fixed linear chain
`collect → retrieve_context → analyze → classify → create_tickets → notify
→ store` (agent.py lines 86-109); each node mutates the shared state dict
in place, so the chain is embedded as sequential state passing. -/

/-- The per-cycle ticket record appended by `_create_tickets_node`
(agent.py lines 229-233). -/
structure TicketEntry where
  incidentId : String
  ticketKey : String
  autoClosed : Bool
deriving DecidableEq, Repr

/-- The per-cycle notification record appended by `_notify_node`
(agent.py lines 249-253). -/
structure NotifEntry where
  incidentId : String
  priority : Priority
  result : NotifyResult
deriving DecidableEq, Repr

/-- `AgentState` (agent.py lines 22-42). -/
structure CycleState where
  events : List SourceEvent := []
  analyzedEvents : List AnalyzedEvent := []
  incidents : List Incident := []
  runbooks : List String := []
  similarIncidents : List String := []
  ticketsCreated : List TicketEntry := []
  notificationsSent : List NotifEntry := []
  incidentsStored : List String := []
  error : Option String := none
  currentStep : String := "init"

/-- The initial cycle state (agent.py lines 284-295). -/
def initialState : CycleState := {}

/-- `MonitoringAgent._collect_node` (agent.py lines 111-123).
`collectRes` models `collector_manager.collect_all()`; an error models the
call raising. -/
def collectNode (collectRes : Except String (List SourceEvent))
    (st : CycleState) : CycleState :=
  let st := { st with currentStep := "collect" }
  match collectRes with
  | .ok evs => { st with events := evs }
  | .error e => { st with error := some ("Collection error: " ++ e), events := [] }

/-- `MonitoringAgent._retrieve_context_node` (agent.py lines 125-155).
`runbooksO` / `similarO` model the two RAG searches on the query built from
the first five event descriptions; if either raises, both outputs reset to
empty (the shared `except` block). -/
def retrieveContextNode (runbooksO similarO : String → Except String (List String))
    (st : CycleState) : CycleState :=
  let st := { st with currentStep := "retrieve_context" }
  if st.events.isEmpty then
    { st with runbooks := [], similarIncidents := [] }
  else
    let query := pyJoin " "
      ((st.events.take 5).map fun e => e.description.take 200)
    match runbooksO query, similarO query with
    | .ok rbs, .ok sim => { st with runbooks := rbs, similarIncidents := sim }
    | _, _ => { st with runbooks := [], similarIncidents := [] }

/-- `MonitoringAgent._analyze_node` (agent.py lines 157-184).  `analyzeO`
models `anomaly_detector.analyze_events` (context omitted: it only feeds
the external AI prompt); an error degrades to an empty analyzed list. -/
def analyzeNode (analyzeO : List SourceEvent → Except String (List AnalyzedEvent))
    (st : CycleState) : CycleState :=
  let st := { st with currentStep := "analyze" }
  if st.events.isEmpty then { st with analyzedEvents := [] }
  else
    match analyzeO st.events with
    | .ok analyzed => { st with analyzedEvents := analyzed }
    | .error _ => { st with analyzedEvents := [] }

/-- `MonitoringAgent._classify_node` (agent.py lines 186-218), delegating
to the embedded `classify`. -/
def classifyNode (useAI : Bool) (aiO : List AnalyzedEvent → Option Priority)
    (idO : List AnalyzedEvent → String)
    (setEnum : List IncidentCategory → List IncidentCategory)
    (st : CycleState) : CycleState :=
  let st := { st with currentStep := "classify" }
  if st.analyzedEvents.isEmpty then { st with incidents := [] }
  else { st with incidents := classify useAI aiO idO setEnum st.analyzedEvents }

/-- `MonitoringAgent._create_tickets_node` (agent.py lines 220-238):
iterate the incident list, appending a `TicketEntry` for each truthy
result; `incident.set_ticket` mutates the incident held in the state. -/
def createTicketsNode (cfg : JiraConfig) (post : Incident → Except String String)
    (st : CycleState) : CycleState :=
  let step := fun (acc : List TicketEntry × List Incident) (incident : Incident) =>
    match createTicket cfg post incident with
    | some (res, incident) =>
      (acc.1 ++ [{ incidentId := incident.incidentId, ticketKey := res.key,
                   autoClosed := res.autoClosed }], acc.2 ++ [incident])
    | none => (acc.1, acc.2 ++ [incident])
  let folded := st.incidents.foldl step ([], [])
  { st with currentStep := "create_tickets", ticketsCreated := folded.1,
            incidents := folded.2 }

/-- `MonitoringAgent._notify_node` (agent.py lines 240-258): append an
entry when `result.get("success") or result.get("sns") or
result.get("ses")` is truthy. -/
def notifyNode (cfg : NotificationConfig) (snsSend sesSend : Incident → SendResult)
    (ts : String) (st : CycleState) : CycleState :=
  let step := fun (acc : List NotifEntry × List Incident) (incident : Incident) =>
    let res := notify cfg snsSend sesSend ts incident
    let entries :=
      if res.1.success == some true || res.1.sns.isSome || res.1.ses.isSome then
        acc.1 ++ [{ incidentId := res.2.incidentId, priority := res.2.priority,
                    result := res.1 }]
      else acc.1
    (entries, acc.2 ++ [res.2])
  let folded := st.incidents.foldl step ([], [])
  { st with currentStep := "notify", notificationsSent := folded.1,
            incidents := folded.2 }

/-- `MonitoringAgent._store_node` (agent.py lines 260-275).  `indexO`
models `rag.index_incident`. -/
def storeNode (indexO : Incident → Bool) (st : CycleState) : CycleState :=
  { st with currentStep := "store",
            incidentsStored := st.incidents.foldl
              (fun acc incident =>
                if indexO incident then acc ++ [incident.incidentId] else acc) [] }

/-- The cycle summary returned by `MonitoringAgent.run`
(agent.py lines 300-308). -/
structure CycleSummary where
  success : Bool
  eventsCollected : Nat
  incidentsCreated : Nat
  ticketsCreated : List TicketEntry
  notificationsSent : Nat
  incidentsStored : Nat
  incidents : List Incident
deriving Repr

/-- Build the summary from the final workflow state (agent.py lines
298-308); the workflow itself completed, so `success` is `True`. -/
def mkSummary (st : CycleState) : CycleSummary :=
  { success := true
    eventsCollected := st.events.length
    incidentsCreated := st.incidents.length
    ticketsCreated := st.ticketsCreated
    notificationsSent := st.notificationsSent.length
    incidentsStored := st.incidentsStored.length
    incidents := st.incidents }

/-- One full cycle of `MonitoringAgent.run` (agent.py lines 277-314): the
seven nodes in workflow order, then the summary. -/
def runCycle (collectRes : Except String (List SourceEvent))
    (runbooksO similarO : String → Except String (List String))
    (analyzeO : List SourceEvent → Except String (List AnalyzedEvent))
    (useAI : Bool) (aiO : List AnalyzedEvent → Option Priority)
    (idO : List AnalyzedEvent → String)
    (setEnum : List IncidentCategory → List IncidentCategory)
    (jiraCfg : JiraConfig) (post : Incident → Except String String)
    (notifCfg : NotificationConfig) (snsSend sesSend : Incident → SendResult)
    (ts : String) (indexO : Incident → Bool) : CycleSummary :=
  mkSummary
    (storeNode indexO
      (notifyNode notifCfg snsSend sesSend ts
        (createTicketsNode jiraCfg post
          (classifyNode useAI aiO idO setEnum
            (analyzeNode analyzeO
              (retrieveContextNode runbooksO similarO
                (collectNode collectRes initialState)))))))

/-! ## Concrete fixtures used by witnesses and counterexamples -/

/-- A concrete collected event. -/
def testSourceEvent : SourceEvent :=
  { eventId := "evt-1", title := "CPU alarm", description := "cpu high",
    resourceId := some "i-123" }

/-- A concrete incident in its initial lifecycle state. -/
def testIncident : Incident :=
  { incidentId := "inc-1", title := "CPU alarm", description := "cpu high",
    priority := Priority.P3, category := IncidentCategory.PERFORMANCE }

/-- The test incident at priority P5. -/
def incP5 : Incident := { testIncident with priority := Priority.P5 }

/-- A channel-send oracle that always succeeds. -/
def trivialSend : Incident → SendResult := fun _ => { success := true, info := "" }

/-- A promoted analyzed event categorised `performance`. -/
def perfEvent : AnalyzedEvent :=
  { event := testSourceEvent, anomalyScore := none,
    category := IncidentCategory.PERFORMANCE, isAnomaly := true }

/-- A promoted analyzed event categorised `availability`. -/
def availEvent : AnalyzedEvent :=
  { event := testSourceEvent, anomalyScore := none,
    category := IncidentCategory.AVAILABILITY, isAnomaly := true }

/-- A group whose two members have distinct categories with tied counts;
first-seen order puts `performance` first. -/
def tiedGroup : List AnalyzedEvent := [perfEvent, availEvent]

/-- A performance event carrying anomaly score 0.6. -/
def monoEventLow : AnalyzedEvent :=
  { event := testSourceEvent,
    anomalyScore := some { score := mkRat 6 10, confidence := mkRat 9 10,
                           reasoning := "r" },
    category := IncidentCategory.PERFORMANCE, isAnomaly := true }

/-- The same event with the anomaly score raised to 0.9. -/
def monoEventHigh : AnalyzedEvent :=
  { monoEventLow with
    anomalyScore := some { score := mkRat 9 10, confidence := mkRat 9 10,
                           reasoning := "r" } }

/-- The executable subtraction used in `categoryAdjust` is the standard
rational subtraction. -/
theorem ratSub_eq_sub (a b : ℚ) : ratSub a b = a - b := by
  rw [Rat.sub_def]
  simp [ratSub, Rat.normalize_eq_mkRat]

/-! ## Claim C2 — merge commutativity and severity selection -/

/-- C2: for all priorities `p`, `q`, `_more_severe` is commutative and
returns the priority with the smaller index in the order P1 < ... < P6,
and the merge step of `classify` (rule result merged with an available AI
result) is exactly `_more_severe`. -/
theorem moreSevere_comm_and_min :
    ∀ p q : Priority,
      moreSevere p q = moreSevere q p ∧
      sevIdx (moreSevere p q) = min (sevIdx p) (sevIdx q) ∧
      classifyMergedPriority p (some q) = moreSevere p q := by
  decide

/-! ## Claim C7 — the auto-close predicate -/

/-- C7: `should_auto_close` holds exactly for priorities P4, P5, P6; in
particular it is false at P3 and true at P6, and never true for P1-P3. -/
theorem shouldAutoClose_iff (i : Incident) :
    (shouldAutoClose i = true ↔
      (i.priority = Priority.P4 ∨ i.priority = Priority.P5 ∨
       i.priority = Priority.P6)) ∧
    shouldAutoClose { i with priority := Priority.P3 } = false ∧
    shouldAutoClose { i with priority := Priority.P6 } = true := by
  refine ⟨?_, rfl, rfl⟩
  cases h : i.priority <;> simp [shouldAutoClose, isLowPriority, h]

/-! ## Claim C6 — pipeline resilience when collection raises -/

/-- C6: whatever the downstream collaborators would do, a cycle whose
event-collection call raises still completes with `success = true`,
zero events collected, zero incidents, an empty ticket list, zero
notifications and zero stored incidents. -/
theorem collect_failure_degrades_to_empty_summary
    (msg : String) (runbooksO similarO : String → Except String (List String))
    (analyzeO : List SourceEvent → Except String (List AnalyzedEvent))
    (useAI : Bool) (aiO : List AnalyzedEvent → Option Priority)
    (idO : List AnalyzedEvent → String)
    (setEnum : List IncidentCategory → List IncidentCategory)
    (jiraCfg : JiraConfig) (post : Incident → Except String String)
    (notifCfg : NotificationConfig) (snsSend sesSend : Incident → SendResult)
    (ts : String) (indexO : Incident → Bool) :
    runCycle (Except.error msg) runbooksO similarO analyzeO useAI aiO idO setEnum
        jiraCfg post notifCfg snsSend sesSend ts indexO =
      { success := true, eventsCollected := 0, incidentsCreated := 0,
        ticketsCreated := [], notificationsSent := 0, incidentsStored := 0,
        incidents := [] } := by
  rfl

/-! ## Claim C4 — lifecycle monotonicity -/

/-- C4 counterexample: the transition methods carry no monotonicity guard,
so a concrete sequence of calls — `resolve` (status index 5) followed by
`set_ticket` (status index 3) — moves the status index backward, refuting
"the status index never decreases for every sequence of transition calls". -/
theorem lifecycle_can_move_backward :
    statusIndex ((applyCall (applyCall testIncident (TransitionCall.resolve none))
        (TransitionCall.setTicket "OPS-1" "https://jira/browse/OPS-1")).status) <
      statusIndex ((applyCall testIncident (TransitionCall.resolve none)).status) := by
  decide

/-- C4 amended: every transition call writes a fixed target status
(`update_status`'s argument, `ticket_created` for `set_ticket`, `resolved`
for `resolve`) regardless of the current status; hence the status trace is
exactly the initial status followed by the per-call targets, and its index
sequence is non-decreasing precisely when that target sequence is
non-decreasing — no guard in the code enforces this. -/
theorem statusTrace_eq_call_targets (i : Incident) (cs : List TransitionCall) :
    statusTrace i cs = i.status :: cs.map callTarget ∧
    (List.Chain' (fun a b => statusIndex a ≤ statusIndex b) (statusTrace i cs) ↔
     List.Chain' (fun a b => statusIndex a ≤ statusIndex b)
       (i.status :: cs.map callTarget)) := by
  have key : ∀ (j : Incident) (c : TransitionCall),
      (applyCall j c).status = callTarget c := by
    intro j c
    cases c with
    | updateStatus s => rfl
    | setTicket k u => rfl
    | resolve note => cases note <;> rfl
  have htrace : statusTrace i cs = i.status :: cs.map callTarget := by
    induction cs generalizing i with
    | nil => rfl
    | cons c cs ih =>
      have : statusTrace i (c :: cs) = i.status :: statusTrace (applyCall i c) cs := by
        simp [statusTrace, List.scanl_cons]
      rw [this, ih (applyCall i c), key i c]
      rfl
  exact ⟨htrace, by rw [htrace]⟩

/-! ## Claim C5 — degraded assessments on AI failure -/

/-- C5 counterexample: when the AI assessment call throws, the default
entry built at anomaly.py lines 77-87 carries **no** `is_anomaly` key, so
downstream reads see `False` — at a concrete event this contradicts the
claimed neutral default `is_anomaly = true`. -/
theorem throw_path_is_anomaly_false :
    ¬ ((defaultOnError testSourceEvent).isAnomaly = true) := by
  decide

/-- C5 amended: when the AI assessment call throws, every event of the
group degrades to score 0.5, confidence 0.3, reasoning
"Analysis unavailable" and **no** `is_anomaly` flag (read as false); when
the response fails JSON parsing, every event degrades to score 0.5,
confidence 0.3, `is_anomaly = true` and reasoning
"Failed to parse AI analysis".  In both cases the event passes the
promotion filter (its score 0.5 meets the `score >= 0.5` branch), so it is
conservatively promoted rather than dropped. -/
theorem degraded_assessments_promoted (evs : List SourceEvent) (a : AnalyzedEvent) :
    (a ∈ errorResults evs →
      a.anomalyScore = some { score := mkRat 1 2, confidence := mkRat 3 10,
                              reasoning := "Analysis unavailable",
                              factors := ["Error during analysis"] } ∧
      a.isAnomaly = false ∧ isPromoted a = true) ∧
    (a ∈ parseFailureResults evs →
      a.anomalyScore = some { score := mkRat 1 2, confidence := mkRat 3 10,
                              reasoning := "Failed to parse AI analysis",
                              factors := [] } ∧
      a.isAnomaly = true ∧ isPromoted a = true) := by
  constructor
  · intro h
    obtain ⟨e, _, rfl⟩ := List.mem_map.mp h
    exact ⟨rfl, rfl, rfl⟩
  · intro h
    obtain ⟨e, _, rfl⟩ := List.mem_map.mp h
    exact ⟨rfl, rfl, rfl⟩

/-- Witness for the amended C5 theorem at a concrete event list. -/
theorem degraded_assessments_promoted_witness :
    (defaultOnError testSourceEvent).isAnomaly = false ∧
    isPromoted (defaultOnError testSourceEvent) = true ∧
    (defaultOnParseFailure testSourceEvent).isAnomaly = true ∧
    isPromoted (defaultOnParseFailure testSourceEvent) = true := by
  have h1 := (degraded_assessments_promoted [testSourceEvent]
    (defaultOnError testSourceEvent)).1 (by simp [errorResults])
  have h2 := (degraded_assessments_promoted [testSourceEvent]
    (defaultOnParseFailure testSourceEvent)).2 (by simp [parseFailureResults])
  exact ⟨h1.2.1, h1.2.2, h2.2.1, h2.2.2⟩

/-! ## Claim C9 — the P5 end-to-end scenario -/

/-- C9 counterexample: at a concrete P5 incident, `notify` returns the
empty-channel early result (`success = true`) but the incident comes back
**unchanged** — in particular no notification entry with `channels = []`
(nor any entry at all) is recorded on it, refuting "records a notification
entry with channels=[] on the incident". -/
theorem p5_notify_records_no_entry :
    (notify defaultNotificationConfig trivialSend trivialSend "t0" incP5).1.success
        = some true ∧
    (notify defaultNotificationConfig trivialSend trivialSend "t0" incP5).2 = incP5 ∧
    ¬ (∃ entry, entry ∈ (notify defaultNotificationConfig trivialSend trivialSend "t0"
          incP5).2.notificationsSent ∧ entry.channels = []) := by
  refine ⟨rfl, rfl, ?_⟩
  rintro ⟨entry, hmem, -⟩
  simp [notify, defaultNotificationConfig, defaultNotificationRules, incP5,
    testIncident] at hmem

/-- C9 amended: for a P5 incident the ticket stage returns
`auto_closed = true` (when the HTTP creation succeeds), and the notify
stage — whose configured channel list for P5 is empty — contacts no
channel, returns `success = true` with reason "No notifications required
for this priority", and leaves the incident unchanged (recording **no**
notification entry). -/
theorem p5_auto_closed_and_silent_notify (inc : Incident)
    (cfg : JiraConfig) (post : Incident → Except String String)
    (snsSend sesSend : Incident → SendResult) (ts key : String)
    (hp : inc.priority = Priority.P5) (hen : cfg.enabled = true)
    (hpost : post inc = Except.ok key) :
    (∃ res inc2, createTicket cfg post inc = some (res, inc2) ∧
      res.autoClosed = true ∧ res.key = key) ∧
    notify defaultNotificationConfig snsSend sesSend ts inc =
      ({ success := some true,
         reason := some "No notifications required for this priority" }, inc) := by
  constructor
  · have hlow : shouldAutoClose
        (setTicket inc key (cfg.baseUrl ++ "/browse/" ++ key)) = true := by
      simp [shouldAutoClose, isLowPriority, setTicket, updateStatus, hp]
    refine ⟨{ key := key, url := cfg.baseUrl ++ "/browse/" ++ key, autoClosed := true },
      setTicket inc key (cfg.baseUrl ++ "/browse/" ++ key), ?_, rfl, rfl⟩
    simp [createTicket, hen, hpost, hlow]
  · simp [notify, defaultNotificationConfig, defaultNotificationRules, hp]

/-- Witness for the amended C9 theorem at a concrete P5 incident. -/
theorem p5_auto_closed_and_silent_notify_witness :
    (∃ res inc2,
      createTicket { enabled := true, baseUrl := "https://jira" }
        (fun _ => Except.ok "OPS-9") incP5 = some (res, inc2) ∧
      res.autoClosed = true ∧ res.key = "OPS-9") ∧
    notify defaultNotificationConfig trivialSend trivialSend "t0" incP5 =
      ({ success := some true,
         reason := some "No notifications required for this priority" }, incP5) :=
  p5_auto_closed_and_silent_notify incP5 { enabled := true, baseUrl := "https://jira" }
    (fun _ => Except.ok "OPS-9") trivialSend trivialSend "t0" "OPS-9" rfl rfl rfl

/-! ## Claim C10 — empty-channel notifications still counted by the cycle -/

/-- C10: for any enabled notification configuration whose channel list for
the incident's priority is empty, `notify` returns `success = true`
without consulting either channel sender and leaves the incident unchanged
(nothing appended to its `notifications_sent`); yet because the result is
truthy on `success`, `_notify_node` still appends an entry for the
incident to the cycle accumulator, so the cycle summary counts it as a
notification sent. -/
theorem empty_channel_notify_still_counted (cfg : NotificationConfig)
    (snsSend sesSend : Incident → SendResult) (ts : String)
    (inc : Incident) (st : CycleState)
    (hen : cfg.enabled = true) (hch : (cfg.rules inc.priority).channels = [])
    (hst : st.incidents = [inc]) :
    notify cfg snsSend sesSend ts inc =
      ({ success := some true,
         reason := some "No notifications required for this priority" }, inc) ∧
    (notifyNode cfg snsSend sesSend ts st).incidents = [inc] ∧
    (notifyNode cfg snsSend sesSend ts st).notificationsSent =
      [{ incidentId := inc.incidentId, priority := inc.priority,
         result := { success := some true,
                     reason := some "No notifications required for this priority" } }] ∧
    (mkSummary (notifyNode cfg snsSend sesSend ts st)).notificationsSent = 1 := by
  have hnot : notify cfg snsSend sesSend ts inc =
      ({ success := some true,
         reason := some "No notifications required for this priority" }, inc) := by
    simp [notify, hen, hch]
  refine ⟨hnot, ?_, ?_, ?_⟩ <;>
    simp [notifyNode, hst, hnot, mkSummary]

/-- Witness for the C10 theorem at a concrete P5 incident under the
default configuration. -/
theorem empty_channel_notify_still_counted_witness :
    notify defaultNotificationConfig trivialSend trivialSend "t0" incP5 =
      ({ success := some true,
         reason := some "No notifications required for this priority" }, incP5) ∧
    (notifyNode defaultNotificationConfig trivialSend trivialSend "t0"
      { incidents := [incP5] }).incidents = [incP5] ∧
    (notifyNode defaultNotificationConfig trivialSend trivialSend "t0"
      { incidents := [incP5] }).notificationsSent =
      [{ incidentId := incP5.incidentId, priority := incP5.priority,
         result := { success := some true,
                     reason := some "No notifications required for this priority" } }] ∧
    (mkSummary (notifyNode defaultNotificationConfig trivialSend trivialSend "t0"
      { incidents := [incP5] })).notificationsSent = 1 :=
  empty_channel_notify_still_counted defaultNotificationConfig trivialSend trivialSend
    "t0" incP5 { incidents := [incP5] } rfl rfl rfl

/-! ## Claim C8 — incident category selection -/

/-- The fold of `pyMaxByCount` returns its seed or a list member, with a
count at least every processed count. -/
theorem pyMaxByCount_foldl_spec (cats : List IncidentCategory) :
    ∀ (t : List IncidentCategory) (b : IncidentCategory),
      ((t.foldl (fun best c => if cats.count best < cats.count c then c else best) b) = b ∨
        (t.foldl (fun best c => if cats.count best < cats.count c then c else best) b) ∈ t) ∧
      cats.count b ≤
        cats.count (t.foldl (fun best c => if cats.count best < cats.count c then c else best) b) ∧
      ∀ c ∈ t, cats.count c ≤
        cats.count (t.foldl (fun best c => if cats.count best < cats.count c then c else best) b) := by
  intro t
  induction t with
  | nil =>
    intro b
    exact ⟨Or.inl rfl, le_refl _, by simp⟩
  | cons c t ih =>
    intro b
    by_cases h : cats.count b < cats.count c
    · have hstep : (c :: t).foldl
          (fun best x => if cats.count best < cats.count x then x else best) b =
          t.foldl (fun best x => if cats.count best < cats.count x then x else best) c := by
        simp [List.foldl_cons, h]
      obtain ⟨hmem, hself, hall⟩ := ih c
      rw [hstep]
      refine ⟨?_, le_trans (le_of_lt h) hself, ?_⟩
      · rcases hmem with heq | hin
        · exact Or.inr (by rw [heq]; exact List.mem_cons_self c t)
        · exact Or.inr (List.mem_cons_of_mem c hin)
      · intro x hx
        rcases List.mem_cons.mp hx with rfl | hx
        · exact hself
        · exact hall x hx
    · have hstep : (c :: t).foldl
          (fun best x => if cats.count best < cats.count x then x else best) b =
          t.foldl (fun best x => if cats.count best < cats.count x then x else best) b := by
        simp [List.foldl_cons, h]
      obtain ⟨hmem, hself, hall⟩ := ih b
      rw [hstep]
      refine ⟨?_, hself, ?_⟩
      · rcases hmem with heq | hin
        · exact Or.inl heq
        · exact Or.inr (List.mem_cons_of_mem c hin)
      · intro x hx
        rcases List.mem_cons.mp hx with rfl | hx
        · exact le_trans (le_of_not_lt h) hself
        · exact hall x hx

/-- C8 counterexample: at the concrete two-member group whose categories
`[performance, availability]` are tied, the valid set-enumeration
`[availability, performance]` makes `_create_incident` choose
`availability`, not the first-seen `performance` — the tie-break is the
unspecified Python set iteration order, not first-seen order. -/
theorem category_tie_break_not_first_seen :
    validEnum [IncidentCategory.AVAILABILITY, IncidentCategory.PERFORMANCE]
      (tiedGroup.map AnalyzedEvent.category) ∧
    (tiedGroup.map AnalyzedEvent.category).head? = some IncidentCategory.PERFORMANCE ∧
    (createIncident "id0" [IncidentCategory.AVAILABILITY, IncidentCategory.PERFORMANCE]
        tiedGroup Priority.P3).category = IncidentCategory.AVAILABILITY ∧
    IncidentCategory.AVAILABILITY ≠ IncidentCategory.PERFORMANCE := by
  decide

/-- C8 amended: for every non-empty group and every possible iteration
order of the set of member categories, the incident's category is one of
the member categories and its member count is maximal; a category with a
strictly greatest count is always chosen.  Ties, however, are broken by
the unspecified set iteration order, not by first-seen order. -/
theorem incident_category_majority (id : String) (enum : List IncidentCategory)
    (events : List AnalyzedEvent) (p : Priority)
    (hne : events ≠ [])
    (henum : validEnum enum (events.map AnalyzedEvent.category)) :
    (createIncident id enum events p).category ∈ events.map AnalyzedEvent.category ∧
    (∀ c ∈ events.map AnalyzedEvent.category,
      (events.map AnalyzedEvent.category).count c ≤
        (events.map AnalyzedEvent.category).count
          ((createIncident id enum events p).category)) ∧
    (∀ c ∈ events.map AnalyzedEvent.category,
      (∀ c2 ∈ events.map AnalyzedEvent.category, c2 ≠ c →
        (events.map AnalyzedEvent.category).count c2 <
          (events.map AnalyzedEvent.category).count c) →
      (createIncident id enum events p).category = c) := by
  have hcat : (createIncident id enum events p).category =
      pyMaxByCount enum (events.map AnalyzedEvent.category) := rfl
  obtain ⟨hnodup, hmem⟩ := henum
  match henum2 : enum with
  | [] =>
    exfalso
    obtain ⟨e, hes⟩ := List.exists_mem_of_ne_nil events hne
    have hcontra : e.category ∈ ([] : List IncidentCategory) :=
      (hmem e.category).mpr (List.mem_map_of_mem AnalyzedEvent.category hes)
    simp at hcontra
  | h :: t =>
    obtain ⟨hin, hself, hall⟩ :=
      pyMaxByCount_foldl_spec (events.map AnalyzedEvent.category) t h
    have hchosen_enum : pyMaxByCount (h :: t) (events.map AnalyzedEvent.category) ∈
        (h :: t) := by
      rcases hin with heq | hin
      · rw [pyMaxByCount, heq]; exact List.mem_cons_self h t
      · exact List.mem_cons_of_mem h hin
    have hmax : ∀ c ∈ (h :: t), (events.map AnalyzedEvent.category).count c ≤
        (events.map AnalyzedEvent.category).count
          (pyMaxByCount (h :: t) (events.map AnalyzedEvent.category)) := by
      intro c hc
      rcases List.mem_cons.mp hc with rfl | hc
      · exact hself
      · exact hall c hc
    have hchosen_cats : pyMaxByCount (h :: t) (events.map AnalyzedEvent.category) ∈
        events.map AnalyzedEvent.category :=
      (hmem _).mp hchosen_enum
    rw [hcat]
    refine ⟨hchosen_cats, ?_, ?_⟩
    · intro c hc
      exact hmax c ((hmem c).mpr hc)
    · intro c hc hstrict
      by_contra hne2
      have h1 := hstrict _ hchosen_cats hne2
      have h2 : (events.map AnalyzedEvent.category).count c ≤
          (events.map AnalyzedEvent.category).count
            (pyMaxByCount (h :: t) (events.map AnalyzedEvent.category)) :=
        hmax c ((hmem c).mpr hc)
      exact absurd h1 (not_lt.mpr h2)

/-- Witness for the amended C8 theorem at the concrete tied group with the
first-seen enumeration order. -/
theorem incident_category_majority_witness :
    (createIncident "id0" [IncidentCategory.PERFORMANCE, IncidentCategory.AVAILABILITY]
        tiedGroup Priority.P3).category ∈ tiedGroup.map AnalyzedEvent.category ∧
    (∀ c ∈ tiedGroup.map AnalyzedEvent.category,
      (tiedGroup.map AnalyzedEvent.category).count c ≤
        (tiedGroup.map AnalyzedEvent.category).count
          ((createIncident "id0"
            [IncidentCategory.PERFORMANCE, IncidentCategory.AVAILABILITY]
            tiedGroup Priority.P3).category)) ∧
    (∀ c ∈ tiedGroup.map AnalyzedEvent.category,
      (∀ c2 ∈ tiedGroup.map AnalyzedEvent.category, c2 ≠ c →
        (tiedGroup.map AnalyzedEvent.category).count c2 <
          (tiedGroup.map AnalyzedEvent.category).count c) →
      (createIncident "id0" [IncidentCategory.PERFORMANCE, IncidentCategory.AVAILABILITY]
          tiedGroup Priority.P3).category = c) :=
  incident_category_majority "id0"
    [IncidentCategory.PERFORMANCE, IncidentCategory.AVAILABILITY]
    tiedGroup Priority.P3 (by decide) (by decide)

/-! ## Claim C3 — monotonicity of the rule-based path -/

/-- Every priority index is at most the index of P6. -/
theorem sevIdx_le_sevIdx_P6 : ∀ p : Priority, sevIdx p ≤ sevIdx Priority.P6 := by
  decide

/-- `_more_severe` computes the minimum severity index. -/
theorem sevIdx_moreSevere :
    ∀ a b : Priority, sevIdx (moreSevere a b) = min (sevIdx a) (sevIdx b) := by
  decide

/-- In a table whose entries are sorted by a weight, weakening the search
predicate pointwise can only move the first hit earlier: if the stronger
predicate hits, the weaker one hits at an entry of no greater weight. -/
theorem find_first_mono {α : Type} (idx : α → Nat) (p q : α → Bool) :
    ∀ (tbl : List α), (∀ e ∈ tbl, p e = true → q e = true) →
      tbl.Pairwise (fun a b => idx a ≤ idx b) →
      ∀ e1, tbl.find? p = some e1 →
        ∃ e2, tbl.find? q = some e2 ∧ idx e2 ≤ idx e1 := by
  intro tbl
  induction tbl with
  | nil =>
    intro _ _ e1 hfind
    simp at hfind
  | cons a t ih =>
    intro himp hsort e1 hfind
    by_cases hpa : p a = true
    · rw [List.find?_cons_of_pos _ hpa] at hfind
      obtain rfl := Option.some.inj hfind
      exact ⟨a, List.find?_cons_of_pos _ (himp a (List.mem_cons_self a t) hpa),
        le_refl _⟩
    · rw [List.find?_cons_of_neg _ (by simpa using hpa)] at hfind
      by_cases hqa : q a = true
      · refine ⟨a, List.find?_cons_of_pos _ hqa, ?_⟩
        exact (List.pairwise_cons.mp hsort).1 e1 (List.mem_of_find?_eq_some hfind)
      · obtain ⟨e2, hfind2, hle⟩ :=
          ih (fun e he => himp e (List.mem_cons_of_mem a he))
            (List.pairwise_cons.mp hsort).2 e1 hfind
        refine ⟨e2, ?_, hle⟩
        rw [List.find?_cons_of_neg _ (by simpa using hqa)]
        exact hfind2

/-- Raising the maximum score can only make the threshold-scan result more
severe. -/
theorem thresholdBase_mono (s1 s2 : ℚ) (hs : s1 ≤ s2) :
    sevIdx (thresholdBase s2) ≤ sevIdx (thresholdBase s1) := by
  cases hf1 : anomalyThresholds.find? fun pt => decide (pt.2 ≤ s1) with
  | none =>
    have h1 : thresholdBase s1 = Priority.P6 := by simp [thresholdBase, hf1]
    rw [h1]
    exact sevIdx_le_sevIdx_P6 _
  | some e1 =>
    obtain ⟨e2, hf2, hle⟩ := find_first_mono (fun pt => sevIdx pt.1) _ _
      anomalyThresholds
      (fun e _ hpe => decide_eq_true (le_trans (of_decide_eq_true hpe) hs))
      (by decide) e1 hf1
    simp only [thresholdBase, hf1, hf2, Option.map_some, Option.getD_some]
    exact hle

/-- Raising the maximum score while fixing the primary category can only
make the category-weight adjustment more severe, monotonically in the
incoming base priority. -/
theorem categoryAdjust_mono (cat : IncidentCategory) (b1 b2 : Priority)
    (s1 s2 : ℚ) (hb : sevIdx b2 ≤ sevIdx b1) (hs : s1 ≤ s2) :
    sevIdx (categoryAdjust b2 cat s2) ≤ sevIdx (categoryAdjust b1 cat s1) := by
  cases hf1 : (categoryWeights cat).find?
      fun pw => decide (ratSub (thresholdOf pw.1) pw.2 ≤ s1) with
  | none =>
    cases hf2 : (categoryWeights cat).find?
        fun pw => decide (ratSub (thresholdOf pw.1) pw.2 ≤ s2) with
    | none =>
      simp only [categoryAdjust, hf1, hf2]
      exact hb
    | some pw2 =>
      simp only [categoryAdjust, hf1, hf2, sevIdx_moreSevere]
      exact le_trans (min_le_left _ _) hb
  | some pw1 =>
    obtain ⟨pw2, hf2, hle⟩ := find_first_mono (fun pw => sevIdx pw.1) _ _
      (categoryWeights cat)
      (fun e _ hpe => decide_eq_true (le_trans (of_decide_eq_true hpe) hs))
      (by cases cat <;> decide) pw1 hf1
    simp only [categoryAdjust, hf1, hf2, sevIdx_moreSevere]
    exact min_le_min hb hle

/-- The keyword adjustment is monotone in the incoming base priority when
the joined text is fixed. -/
theorem keywordAdjust_mono (text : String) (b1 b2 : Priority)
    (hb : sevIdx b2 ≤ sevIdx b1) :
    sevIdx (keywordAdjust b2 text) ≤ sevIdx (keywordAdjust b1 text) := by
  cases hf : keywordTable.find? (fun pk => pk.2.any fun kw => pyIn kw text) with
  | none =>
    simp only [keywordAdjust, hf]
    exact hb
  | some pk =>
    simp only [keywordAdjust, hf, sevIdx_moreSevere]
    exact min_le_min hb (le_refl _)

/-- C3: for any set-enumeration order and any two event groups agreeing on
their category lists and description lists, the group with the larger (or
equal) maximum anomaly score never receives a less severe rule-based
classification. -/
theorem rule_based_monotone (enum : List IncidentCategory)
    (ev1 ev2 : List AnalyzedEvent)
    (hcat : ev1.map AnalyzedEvent.category = ev2.map AnalyzedEvent.category)
    (hdesc : ev1.map (fun e => e.event.description) =
      ev2.map (fun e => e.event.description))
    (hs : maxScoreOf ev1 ≤ maxScoreOf ev2) :
    sevIdx (ruleBasedClassification enum ev2) ≤
      sevIdx (ruleBasedClassification enum ev1) := by
  match ev1, ev2 with
  | [], [] => exact le_refl _
  | [], e2 :: t2 => simp at hcat
  | e1 :: t1, [] => simp at hcat
  | e1 :: t1, e2 :: t2 =>
    have htext : allText (e1 :: t1) = allText (e2 :: t2) := by
      unfold allText
      have hmap : (e1 :: t1).map (fun e => pyLower e.event.description) =
          (e2 :: t2).map (fun e => pyLower e.event.description) := by
        have c1 : (e1 :: t1).map (fun e => pyLower e.event.description) =
            ((e1 :: t1).map (fun e => e.event.description)).map pyLower := by
          rw [List.map_map]; rfl
        have c2 : (e2 :: t2).map (fun e => pyLower e.event.description) =
            ((e2 :: t2).map (fun e => e.event.description)).map pyLower := by
          rw [List.map_map]; rfl
        rw [c1, c2, hdesc]
      rw [hmap]
    have hprim : pyMaxByCount enum ((e1 :: t1).map AnalyzedEvent.category) =
        pyMaxByCount enum ((e2 :: t2).map AnalyzedEvent.category) := by
      rw [hcat]
    show sevIdx (keywordAdjust
        (categoryAdjust (thresholdBase (maxScoreOf (e2 :: t2)))
          (pyMaxByCount enum ((e2 :: t2).map AnalyzedEvent.category))
          (maxScoreOf (e2 :: t2)))
        (allText (e2 :: t2))) ≤
      sevIdx (keywordAdjust
        (categoryAdjust (thresholdBase (maxScoreOf (e1 :: t1)))
          (pyMaxByCount enum ((e1 :: t1).map AnalyzedEvent.category))
          (maxScoreOf (e1 :: t1)))
        (allText (e1 :: t1)))
    rw [← hprim, ← htext]
    exact keywordAdjust_mono _ _ _
      (categoryAdjust_mono _ _ _ _ _ (thresholdBase_mono _ _ hs) hs)

/-- Witness for C3 at a concrete pair of one-event groups with scores 0.6
and 0.9. -/
theorem rule_based_monotone_witness :
    [monoEventLow].map AnalyzedEvent.category =
      [monoEventHigh].map AnalyzedEvent.category ∧
    [monoEventLow].map (fun e => e.event.description) =
      [monoEventHigh].map (fun e => e.event.description) ∧
    maxScoreOf [monoEventLow] ≤ maxScoreOf [monoEventHigh] ∧
    sevIdx (ruleBasedClassification [IncidentCategory.PERFORMANCE] [monoEventHigh]) ≤
      sevIdx (ruleBasedClassification [IncidentCategory.PERFORMANCE] [monoEventLow]) :=
  ⟨by decide, by decide, by decide,
    rule_based_monotone [IncidentCategory.PERFORMANCE] [monoEventLow] [monoEventHigh]
      (by decide) (by decide) (by decide)⟩

/-! ## Claim C1 — the grouping step partitions the promoted events -/

/-- No category's `.value` contains the `':'` separator. -/
theorem catValue_no_colon : ∀ c : IncidentCategory, ':' ∉ c.value.data := by
  decide

/-- Distinct categories have distinct `.value` strings. -/
theorem catValue_injective :
    ∀ c1 c2 : IncidentCategory, c1.value = c2.value → c1 = c2 := by
  decide

/-- Splitting at the first `':'` recovers both halves when neither prefix
contains `':'`. -/
theorem colon_append_inj : ∀ (l1 l2 t1 t2 : List Char), ':' ∉ l1 → ':' ∉ l2 →
    l1 ++ ':' :: t1 = l2 ++ ':' :: t2 → l1 = l2 ∧ t1 = t2 := by
  intro l1
  induction l1 with
  | nil =>
    intro l2 t1 t2 _ h2 heq
    cases l2 with
    | nil => simpa using heq
    | cons b l2 =>
      exfalso
      simp only [List.nil_append, List.cons_append, List.cons.injEq] at heq
      obtain ⟨hb, -⟩ := heq
      subst hb
      exact h2 (List.mem_cons_self _ _)
  | cons a l1 ih =>
    intro l2 t1 t2 h1 h2 heq
    cases l2 with
    | nil =>
      exfalso
      simp only [List.cons_append, List.nil_append, List.cons.injEq] at heq
      obtain ⟨ha, -⟩ := heq
      subst ha
      exact h1 (List.mem_cons_self _ _)
    | cons b l2 =>
      simp only [List.cons_append, List.cons.injEq] at heq
      obtain ⟨rfl, heq2⟩ := heq
      obtain ⟨rfl, rfl⟩ := ih l2 t1 t2
        (fun h => h1 (List.mem_cons_of_mem a h))
        (fun h => h2 (List.mem_cons_of_mem a h)) heq2
      exact ⟨rfl, rfl⟩

/-- The string grouping key encodes exactly the
`(category, resource_id-or-"unknown")` pair. -/
theorem pyGroupKey_eq_iff (a b : AnalyzedEvent) :
    pyGroupKey a = pyGroupKey b ↔ keyPair a = keyPair b := by
  constructor
  · intro h
    have hdata : a.category.value.data ++
        ':' :: (a.event.resourceId.getD "unknown").data =
        b.category.value.data ++
        ':' :: (b.event.resourceId.getD "unknown").data := by
      have h2 := String.ext_iff.mp h
      simpa [pyGroupKey, String.data_append] using h2
    obtain ⟨hv, hr⟩ := colon_append_inj _ _ _ _
      (catValue_no_colon a.category) (catValue_no_colon b.category) hdata
    have hcat : a.category = b.category :=
      catValue_injective _ _ (String.ext_iff.mpr hv)
    have hres : a.event.resourceId.getD "unknown" =
        b.event.resourceId.getD "unknown" := String.ext_iff.mpr hr
    simp [keyPair, hcat, hres]
  · intro h
    have h1 : a.category = b.category := congrArg Prod.fst h
    have h2 : a.event.resourceId.getD "unknown" =
        b.event.resourceId.getD "unknown" := congrArg Prod.snd h
    simp [pyGroupKey, h1, h2]

/-- `addToGroups` keeps the key list when the key exists, otherwise
appends the new key at the end. -/
theorem addToGroups_keys (gs : List (String × List AnalyzedEvent))
    (e : AnalyzedEvent) :
    (addToGroups gs e).map Prod.fst =
      if pyGroupKey e ∈ gs.map Prod.fst then gs.map Prod.fst
      else gs.map Prod.fst ++ [pyGroupKey e] := by
  induction gs with
  | nil => simp [addToGroups]
  | cons ke gs ih =>
    obtain ⟨k, es⟩ := ke
    by_cases hk : k = pyGroupKey e
    · subst hk
      simp [addToGroups]
    · have hrw : addToGroups ((k, es) :: gs) e = (k, es) :: addToGroups gs e := by
        simp [addToGroups, hk]
      have hk2 : ¬ (pyGroupKey e = k) := fun h => hk h.symm
      rw [hrw, List.map_cons, ih]
      by_cases hmem : pyGroupKey e ∈ gs.map Prod.fst
      · simp [hmem, List.mem_cons, hk2]
      · simp [hmem, List.mem_cons, hk2]

/-- One `addToGroups` step preserves the grouping invariant: every group is
the ordered filter of the processed prefix at its key, and the keys stay
distinct. -/
theorem addToGroups_spec (p : List AnalyzedEvent) (e : AnalyzedEvent) :
    ∀ (gs : List (String × List AnalyzedEvent)),
      (∀ kes ∈ gs, kes.2 = p.filter fun x => decide (pyGroupKey x = kes.1)) →
      ((gs.map Prod.fst).Nodup) →
      (pyGroupKey e ∉ gs.map Prod.fst →
        p.filter (fun x => decide (pyGroupKey x = pyGroupKey e)) = []) →
      (∀ kes ∈ addToGroups gs e,
        kes.2 = (p ++ [e]).filter fun x => decide (pyGroupKey x = kes.1)) ∧
      (((addToGroups gs e).map Prod.fst).Nodup) := by
  intro gs
  induction gs with
  | nil =>
    intro _ _ h3
    constructor
    · intro kes hkes
      simp only [addToGroups, List.mem_singleton] at hkes
      subst hkes
      rw [List.filter_append, h3 (by simp)]
      simp
    · simp [addToGroups]
  | cons ke gs ih =>
    obtain ⟨k, es⟩ := ke
    intro h1 h2 h3
    by_cases hk : k = pyGroupKey e
    · have hrw : addToGroups ((k, es) :: gs) e = (k, es ++ [e]) :: gs := by
        simp [addToGroups, hk]
      constructor
      · intro kes hkes
        rw [hrw] at hkes
        rcases List.mem_cons.mp hkes with heq | hmem
        · subst heq
          have hes := h1 (k, es) (List.mem_cons_self _ _)
          simp only at hes ⊢
          rw [List.filter_append, ← hes]
          simp [hk]
        · have hkes1 : kes.1 ≠ k := by
            intro hcontra
            have hkmem : kes.1 ∈ gs.map Prod.fst :=
              List.mem_map_of_mem Prod.fst hmem
            rw [hcontra] at hkmem
            exact (List.nodup_cons.mp h2).1 hkmem
          have hkne : ¬ (pyGroupKey e = kes.1) := by
            rw [← hk]
            exact fun h => hkes1 h.symm
          rw [List.filter_append]
          have hemp : [e].filter (fun x => decide (pyGroupKey x = kes.1)) = [] := by
            simp [hkne]
          rw [hemp, List.append_nil]
          exact h1 kes (List.mem_cons_of_mem _ hmem)
      · rw [hrw]
        simpa using h2
    · have hrw : addToGroups ((k, es) :: gs) e = (k, es) :: addToGroups gs e := by
        simp [addToGroups, hk]
      have hstep := ih (fun kes hkes => h1 kes (List.mem_cons_of_mem _ hkes))
        (List.nodup_cons.mp h2).2
        (fun hnot => h3 (by
          simp only [List.map_cons, List.mem_cons, not_or]
          exact ⟨fun hcontra => hk hcontra.symm, hnot⟩))
      constructor
      · intro kes hkes
        rw [hrw] at hkes
        rcases List.mem_cons.mp hkes with heq | hmem
        · subst heq
          have hkne : ¬ (pyGroupKey e = k) := fun h => hk h.symm
          rw [List.filter_append]
          have hemp : [e].filter (fun x => decide (pyGroupKey x = k)) = [] := by
            simp [hkne]
          rw [hemp, List.append_nil]
          exact h1 (k, es) (List.mem_cons_self _ _)
        · exact hstep.1 kes hmem
      · rw [hrw, List.map_cons, List.nodup_cons]
        refine ⟨?_, hstep.2⟩
        rw [addToGroups_keys]
        by_cases hcase : pyGroupKey e ∈ gs.map Prod.fst
        · simp only [hcase, if_true]
          exact (List.nodup_cons.mp h2).1
        · simp only [hcase, if_false, List.mem_append, List.mem_singleton, not_or]
          exact ⟨(List.nodup_cons.mp h2).1, hk⟩

/-- The grouping fold preserves the invariant along the whole input. -/
theorem foldl_grouping : ∀ (l p : List AnalyzedEvent)
    (gs : List (String × List AnalyzedEvent)),
    (∀ kes ∈ gs, kes.2 = p.filter fun x => decide (pyGroupKey x = kes.1)) →
    ((gs.map Prod.fst).Nodup) →
    (∀ x ∈ p, pyGroupKey x ∈ gs.map Prod.fst) →
    (∀ kes ∈ l.foldl addToGroups gs,
      kes.2 = (p ++ l).filter fun x => decide (pyGroupKey x = kes.1)) ∧
    (((l.foldl addToGroups gs).map Prod.fst).Nodup) ∧
    (∀ x ∈ p ++ l, pyGroupKey x ∈ (l.foldl addToGroups gs).map Prod.fst) := by
  intro l
  induction l with
  | nil =>
    intro p gs h1 h2 h3
    simp only [List.foldl_nil, List.append_nil]
    exact ⟨h1, h2, h3⟩
  | cons ev rest ih =>
    intro p gs h1 h2 h3
    have hstep := addToGroups_spec p ev gs h1 h2 (fun hnot => by
      rw [List.filter_eq_nil_iff]
      intro x hx
      simp only [decide_eq_true_eq]
      intro hxe
      exact hnot (hxe ▸ h3 x hx))
    have hmem2 : ∀ x ∈ p ++ [ev],
        pyGroupKey x ∈ (addToGroups gs ev).map Prod.fst := by
      intro x hx
      rw [addToGroups_keys]
      rcases List.mem_append.mp hx with hxp | hxe
      · by_cases hc : pyGroupKey ev ∈ gs.map Prod.fst <;>
          simp [hc, h3 x hxp]
      · simp only [List.mem_singleton] at hxe
        subst hxe
        by_cases hc : pyGroupKey x ∈ gs.map Prod.fst <;> simp [hc]
    have hres := ih (p ++ [ev]) (addToGroups gs ev) hstep.1 hstep.2 hmem2
    rw [List.foldl_cons]
    have hassoc : (p ++ [ev]) ++ rest = p ++ (ev :: rest) := by simp
    rw [← hassoc]
    exact hres

/-- One `addToGroups` step appends the event to the flattened contents, up
to permutation. -/
theorem addToGroups_flatten_perm (gs : List (String × List AnalyzedEvent))
    (e : AnalyzedEvent) :
    List.Perm ((addToGroups gs e).map Prod.snd).flatten
      ((gs.map Prod.snd).flatten ++ [e]) := by
  induction gs with
  | nil => simp [addToGroups]
  | cons ke gs ih =>
    obtain ⟨k, es⟩ := ke
    by_cases hk : k = pyGroupKey e
    · have hrw : addToGroups ((k, es) :: gs) e = (k, es ++ [e]) :: gs := by
        simp [addToGroups, hk]
      rw [hrw]
      simp only [List.map_cons, List.flatten_cons]
      have h1 : (es ++ [e]) ++ (gs.map Prod.snd).flatten =
          es ++ ([e] ++ (gs.map Prod.snd).flatten) := by
        rw [List.append_assoc]
      have h2 : (es ++ (gs.map Prod.snd).flatten) ++ [e] =
          es ++ ((gs.map Prod.snd).flatten ++ [e]) := by
        rw [List.append_assoc]
      rw [h1, h2]
      exact List.Perm.append_left es List.perm_append_comm
    · have hrw : addToGroups ((k, es) :: gs) e = (k, es) :: addToGroups gs e := by
        simp [addToGroups, hk]
      rw [hrw]
      simp only [List.map_cons, List.flatten_cons]
      have h2 : (es ++ (gs.map Prod.snd).flatten) ++ [e] =
          es ++ ((gs.map Prod.snd).flatten ++ [e]) := by
        rw [List.append_assoc]
      rw [h2]
      exact List.Perm.append_left es ih

/-- The grouping fold permutes the flattened accumulator plus the input. -/
theorem foldl_flatten_perm : ∀ (l : List AnalyzedEvent)
    (gs : List (String × List AnalyzedEvent)),
    List.Perm ((l.foldl addToGroups gs).map Prod.snd).flatten
      ((gs.map Prod.snd).flatten ++ l) := by
  intro l
  induction l with
  | nil => intro gs; simp
  | cons e l ih =>
    intro gs
    rw [List.foldl_cons]
    have h1 := ih (addToGroups gs e)
    have h2 : List.Perm (((addToGroups gs e).map Prod.snd).flatten ++ l)
        (((gs.map Prod.snd).flatten ++ [e]) ++ l) :=
      List.Perm.append_right l (addToGroups_flatten_perm gs e)
    have h3 : ((gs.map Prod.snd).flatten ++ [e]) ++ l =
        (gs.map Prod.snd).flatten ++ (e :: l) := by simp
    rw [h3] at h2
    exact h1.trans h2

/-- In a duplicate-free list a present element is counted exactly once. -/
theorem countP_eq_one_of_nodup {l : List String} (hn : l.Nodup) {a : String}
    (ha : a ∈ l) : l.countP (fun k => decide (k = a)) = 1 := by
  induction l with
  | nil => simp at ha
  | cons b t ih =>
    rw [List.countP_cons]
    rcases List.mem_cons.mp ha with heq | hat
    · subst heq
      have ht : t.countP (fun k => decide (k = a)) = 0 := by
        rw [List.countP_eq_zero]
        intro x hx
        simp only [decide_eq_true_eq]
        intro hxa
        exact (List.nodup_cons.mp hn).1 (hxa ▸ hx)
      simp [ht]
    · have hbne : b ≠ a := by
        rintro rfl
        exact (List.nodup_cons.mp hn).1 hat
      rw [ih (List.nodup_cons.mp hn).2 hat]
      simp [hbne]

/-- The promotion filter in explicit form. -/
theorem isPromoted_iff (e : AnalyzedEvent) :
    isPromoted e = true ↔
      (e.isAnomaly = true ∨ ∃ s, e.anomalyScore = some s ∧ mkRat 1 2 ≤ s.score) := by
  cases hscore : e.anomalyScore with
  | none => simp [isPromoted, hscore]
  | some s => simp [isPromoted, hscore]

/-- C1: `_group_into_incidents` filters to exactly the entries with
`is_anomaly` true or anomaly score at least 0.5 and partitions them: the
flattened output is a permutation of the filtered input (no duplication,
no loss), each promoted entry lies in exactly one group, and group
membership is governed solely by the `(category, resource_id-or-"unknown")`
equality key. -/
theorem correlate_partitions (xs : List AnalyzedEvent) :
    List.Perm (groupIntoIncidents xs).flatten (xs.filter isPromoted) ∧
    (∀ e, e ∈ (groupIntoIncidents xs).flatten ↔
      (e ∈ xs ∧ (e.isAnomaly = true ∨
        ∃ s, e.anomalyScore = some s ∧ mkRat 1 2 ≤ s.score))) ∧
    (∀ e ∈ xs.filter isPromoted,
      (groupIntoIncidents xs).countP (fun g => decide (e ∈ g)) = 1) ∧
    (∀ g ∈ groupIntoIncidents xs, ∀ a ∈ g, ∀ b ∈ g, keyPair a = keyPair b) ∧
    (∀ g ∈ groupIntoIncidents xs, ∀ a ∈ g, ∀ b ∈ xs.filter isPromoted,
      keyPair a = keyPair b → b ∈ g) := by
  obtain ⟨hG1, hG2, hG3⟩ :=
    foldl_grouping (xs.filter isPromoted) [] [] (by simp) (by simp) (by simp)
  simp only [List.nil_append] at hG1 hG3
  have hperm : List.Perm (groupIntoIncidents xs).flatten (xs.filter isPromoted) := by
    have h := foldl_flatten_perm (xs.filter isPromoted) []
    simpa [groupIntoIncidents] using h
  refine ⟨hperm, ?_, ?_, ?_, ?_⟩
  · intro e
    rw [hperm.mem_iff, List.mem_filter]
    rw [isPromoted_iff]
  · intro e he
    have hkey := hG3 e he
    show ((((xs.filter isPromoted).foldl addToGroups []).map Prod.snd).countP
      (fun g => decide (e ∈ g))) = 1
    rw [List.countP_map]
    have hcong : ∀ kes ∈ (xs.filter isPromoted).foldl addToGroups [],
        ((fun g => decide (e ∈ g)) ∘ Prod.snd) kes = true ↔
          ((fun k => decide (k = pyGroupKey e)) ∘ Prod.fst) kes = true := by
      intro kes hkes
      simp only [Function.comp, decide_eq_true_eq]
      rw [hG1 kes hkes]
      simp only [List.mem_filter, decide_eq_true_eq]
      constructor
      · rintro ⟨-, hdec⟩
        exact hdec.symm
      · intro hk
        exact ⟨List.mem_filter.mp he, hk.symm⟩
    rw [List.countP_congr hcong]
    rw [← List.countP_map]
    exact countP_eq_one_of_nodup hG2 hkey
  · intro g hg a ha b hb
    obtain ⟨kes, hkes, rfl⟩ := List.mem_map.mp hg
    rw [hG1 kes hkes] at ha hb
    have hka := of_decide_eq_true (List.mem_filter.mp ha).2
    have hkb := of_decide_eq_true (List.mem_filter.mp hb).2
    exact (pyGroupKey_eq_iff a b).mp (hka.trans hkb.symm)
  · intro g hg a ha b hb hab
    obtain ⟨kes, hkes, rfl⟩ := List.mem_map.mp hg
    rw [hG1 kes hkes] at ha ⊢
    have hka := of_decide_eq_true (List.mem_filter.mp ha).2
    have hkb : pyGroupKey b = kes.1 :=
      ((pyGroupKey_eq_iff a b).mpr hab).symm.trans hka
    exact List.mem_filter.mpr ⟨hb, decide_eq_true hkb⟩

/-- Witness for C1: the partition property evaluated at a concrete list
containing one promoted and one unpromoted event. -/
theorem correlate_partitions_witness :
    List.Perm (groupIntoIncidents [perfEvent, monoEventLow, availEvent]).flatten
      ([perfEvent, monoEventLow, availEvent].filter isPromoted) ∧
    groupIntoIncidents [perfEvent, monoEventLow, availEvent] =
      [[perfEvent, monoEventLow], [availEvent]] :=
  ⟨(correlate_partitions [perfEvent, monoEventLow, availEvent]).1, by decide⟩

end RCABot

